import Mathlib

/-!
Verification of the reminders core of this repository: the date
normalizer (`formatDateForDisplay`, the `YYYY-MM-DD` parse in the
dashboard submit handler, the `ReminderForm` date validation), the
Firestore-backed reminder store client (`addReminder`, `getReminders`,
`updateReminder`, `deleteReminder` from `src/services/authService.js`),
and the auth error-code mapping from `AuthContext.jsx`.

Modelling conventions:
* A JavaScript `Date` is modelled by the proleptic-Gregorian calendar
  day its local-time getters (`getFullYear`, `getMonth` + 1, `getDate`)
  report; every `Date` the embedded code constructs is local midnight
  and no embedded function reads the time of day, so the time-of-day
  component is dropped.  An invalid `Date` (`NaN` time value) is
  `Option.none` at use sites.
* JavaScript strings are Lean `String`s; `split('-')` and number
  parsing are modelled character-exactly on `String.data`.
* The Firestore collection `users/{userId}/reminders` is an in-memory
  list of documents; Firestore-assigned document ids are passed in as
  an explicit `freshId` argument.  The asynchronous service functions
  become `Except`-valued state transformers: a thrown `TypeError`
  (the spec's `InvalidArgument`) or propagated Firestore failure is
  `Except.error`, and the updated collection is only produced on
  success, so an error result performs no storage write by
  construction, exactly as in the source where validation precedes
  every SDK call.
-/

namespace Giftify

/-- A proleptic-Gregorian calendar day (local time), the observable
content of a valid JavaScript `Date` for this codebase.  `month` is
1-based, as `getMonth() + 1` renders it. -/
structure CivilDate where
  year : Int
  month : Nat
  day : Nat
deriving DecidableEq

/-- Gregorian leap-year rule, as JavaScript `Date` applies it
(proleptic, also for years outside 1582..). -/
def isLeapYear (y : Int) : Bool :=
  y % 4 == 0 && (y % 100 != 0 || y % 400 == 0)

/-- Length of month `m` (1-based) in year `y`. -/
def daysInMonth (y : Int) (m : Nat) : Nat :=
  match m with
  | 1 => 31
  | 2 => if isLeapYear y then 29 else 28
  | 3 => 31
  | 4 => 30
  | 5 => 31
  | 6 => 30
  | 7 => 31
  | 8 => 31
  | 9 => 30
  | 10 => 31
  | 11 => 30
  | 12 => 31
  | _ => 0

/-- The calendar days that actually denote a day (what a valid in-range
JavaScript `Date` can report). -/
def CivilDate.Valid (c : CivilDate) : Prop :=
  1 ≤ c.month ∧ c.month ≤ 12 ∧ 1 ≤ c.day ∧ c.day ≤ daysInMonth c.year c.month

instance (c : CivilDate) : Decidable c.Valid := by
  unfold CivilDate.Valid; infer_instance

/-- Successor day on the calendar (rolls over month and year ends). -/
def nextDay (c : CivilDate) : CivilDate :=
  if c.day < daysInMonth c.year c.month then ⟨c.year, c.month, c.day + 1⟩
  else if c.month < 12 then ⟨c.year, c.month + 1, 1⟩
  else ⟨c.year + 1, 1, 1⟩

/-- Predecessor day on the calendar. -/
def prevDay (c : CivilDate) : CivilDate :=
  if 1 < c.day then ⟨c.year, c.month, c.day - 1⟩
  else if 1 < c.month then ⟨c.year, c.month - 1, daysInMonth c.year (c.month - 1)⟩
  else ⟨c.year - 1, 12, 31⟩

/-- Function `addDays c n` walks `n` calendar days forward. -/
def addDays (c : CivilDate) : Nat → CivilDate
  | 0 => c
  | n + 1 => addDays (nextDay c) n

/-- Function `subDays c n` walks `n` calendar days backward. -/
def subDays (c : CivilDate) : Nat → CivilDate
  | 0 => c
  | n + 1 => subDays (prevDay c) n

/-- Constructor call `new Date(year, monthIndex, day)` (ECMA-262 `MakeDay`/`MakeDate`
semantics restricted to what this codebase observes): a year argument
in `0..99` is read as `1900 + year`; the month index is normalised into
the year by floored division; the day argument is counted from day 1 of
the normalised month, rolling over across month and year boundaries in
either direction.  A `NaN` argument (`Option.none`) yields an invalid
`Date`.  The time-value range check of the real constructor is not
modelled: on the calendar ranges exercised here it never fires. -/
def jsDateCtor (year monthIndex day : Option Int) : Option CivilDate :=
  match year, monthIndex, day with
  | some y, some m, some d =>
    let yr : Int := if 0 ≤ y ∧ y ≤ 99 then 1900 + y else y
    let ym : Int := yr + m.fdiv 12
    let mn : Nat := (m.emod 12).toNat
    some (if 1 ≤ d then addDays ⟨ym, mn + 1, 1⟩ (d - 1).toNat
          else subDays ⟨ym, mn + 1, 1⟩ (1 - d).toNat)
  | _, _, _ => none

/-! ### Decimal rendering and parsing of numbers

`String(n)` / `` `${n}` `` for the integers this code prints, and
`Number(s)` for the strings it parses, modelled character-exactly.
The renderer is fuel-structured so that it is kernel-computable. -/

/-- Core of the decimal renderer: most significant digits are prepended
to `acc` last.  `fuel` strictly exceeds the number digit-extraction
steps whenever `n < fuel`. -/
def natCharsCore : Nat → Nat → List Char → List Char
  | 0, _, acc => acc
  | fuel + 1, n, acc =>
    if n < 10 then Nat.digitChar n :: acc
    else natCharsCore fuel (n / 10) (Nat.digitChar (n % 10) :: acc)

/-- Decimal digits of a natural number, most significant first:
JavaScript `String(n)` for `n : Nat` (so `natToChars 0 = ['0']`). -/
def natToChars (n : Nat) : List Char :=
  natCharsCore (n + 1) n []

/-- JavaScript rendering of an integer in a template string. -/
def intToChars (i : Int) : List Char :=
  if i < 0 then '-' :: natToChars i.natAbs else natToChars i.toNat

/-- Padding `String(n).padStart(2, '0')` for the month/day components. -/
def padTwo (n : Nat) : List Char :=
  let s := natToChars n
  if s.length < 2 then '0' :: s else s

/-- Numeric value of a decimal digit string, most significant first
(the value `Number` produces on an all-digit string). -/
def charsToNat (l : List Char) : Nat :=
  l.foldl (fun a c => 10 * a + (c.toNat - 48)) 0

/-- JavaScript `Number(s)` on the strings this code ever feeds it —
pieces of a `split('-')`, given here as character lists: the empty
string converts to 0, a non-empty all-digit piece to its decimal
value, and any other piece (a piece never contains a minus sign or
whitespace) to `NaN` (`none`). -/
def jsNumber (s : List Char) : Option Int :=
  if s = [] then some 0
  else if s.all Char.isDigit then some (charsToNat s : Int)
  else none

/-- Split `s.split('-')` on the character list: JavaScript string split with
a one-character separator (`"".split('-') = [""]`,
`"-".split('-') = ["", ""]`). -/
def splitOnDash : List Char → List (List Char)
  | [] => [[]]
  | c :: rest =>
    match splitOnDash rest with
    | [] => [[]]
    | h :: t => if c = '-' then [] :: h :: t else (c :: h) :: t

/-! ### The JavaScript value universe the embedded functions range over -/

/-- Outcome of calling the zero-argument `toDate` method of a
timestamp-like (duck-typed) object that is not a real `Timestamp`. -/
inductive TsConvResult where
  | throws
  | nonDate
  | retDate (d : Option CivilDate)
deriving DecidableEq

/-- The JavaScript values the embedded functions receive as arguments
or find stored in Firestore documents.  Numbers are restricted to
integers: at every use site a number only undergoes truthiness and
`typeof`and `instanceof` tests, on which fractional values behave like
some integer. -/
inductive JSVal where
  | vNull
  | vUndef
  | vStr (s : String)
  | vNum (n : Int)
  | vBool (b : Bool)
  | vDate (d : Option CivilDate)
  | vTimestamp (d : CivilDate)
  | vTsLike (r : TsConvResult)
  | vObj
deriving DecidableEq

/-- JavaScript truthiness of the modelled values (objects, including
`Date`, `Timestamp` and invalid `Date`s, are always truthy). -/
def truthy : JSVal → Bool
  | .vNull => false
  | .vUndef => false
  | .vStr s => s != ""
  | .vNum n => n != 0
  | .vBool b => b
  | .vDate _ => true
  | .vTimestamp _ => true
  | .vTsLike _ => true
  | .vObj => true

/-- Truthiness of a possibly absent property (`undefined` is falsy). -/
def truthyOpt : Option JSVal → Bool
  | none => false
  | some v => truthy v

/-! ### Date Normalizer -/

/-- Step 6 of `formatDateForDisplay` (also the body of the form helper
`formatDateToYYYYMMDD`): `` `${year}-${month}-${day}` `` where `month`
is `getMonth() + 1` and month and day are `padStart(2, '0')`-padded.
The year is rendered by plain number-to-string conversion (four digits
exactly for years 1000–9999). -/
def fmtYMD (c : CivilDate) : String :=
  ⟨intToChars c.year ++ '-' :: padTwo c.month ++ '-' :: padTwo c.day⟩

/-- Model of `formatDateForDisplay(dateInput)` from the date utility module:
formats a `Date` / Firestore-`Timestamp`-like / `null` / `undefined`
input as `YYYY-MM-DD`, degrading to the empty string on every invalid
input.  The function is total — the source catches every exception its
steps can raise (the duck-typed `toDate()` call is inside `try`, and
the final formatting `try` can never fire on a validated date) — so the
embedding returns `String` rather than `Except`. -/
def formatDateForDisplay (dateInput : JSVal) : String :=
  match dateInput with
  | .vNull => ""
  | .vUndef => ""
  | .vTimestamp d => fmtYMD d
  | .vTsLike .throws => ""
  | .vTsLike .nonDate => ""
  | .vTsLike (.retDate none) => ""
  | .vTsLike (.retDate (some d)) => fmtYMD d
  | .vDate none => ""
  | .vDate (some d) => fmtYMD d
  | .vStr _ => ""
  | .vNum _ => ""
  | .vBool _ => ""
  | .vObj => ""

/-- The date portion of the dashboard submit handler:
`formData.date.split('-').map(Number)`, then
`new Date(p[0], p[1] - 1, p[2])`, then the `isNaN(getTime())` guard
(`none` here means the handler set a form error and did not call the
service).  Indexing past the end of the parts array yields `undefined`,
which the `Date` constructor coerces to `NaN`. -/
def dashboardParseDate (s : String) : Option CivilDate :=
  let dateParts := (splitOnDash s.data).map jsNumber
  jsDateCtor ((dateParts.get? 0).getD none)
    (((dateParts.get? 1).getD none).map (· - 1))
    ((dateParts.get? 2).getD none)

/-- The whole date path of `handleFormSubmit`: the `!formData.date`
falsy guard, then the parse above. -/
def handleSubmitDate (s : String) : Option CivilDate :=
  if s = "" then none else dashboardParseDate s

/-- The regular expression `^\d{4}-\d{2}-\d{2}$` of
`ReminderForm.validate`. -/
def dateRegexTest (s : String) : Bool :=
  match s.data with
  | [a, b, c, d, '-', e, f, '-', g, h] =>
    a.isDigit && b.isDigit && c.isDigit && d.isDigit &&
      e.isDigit && f.isDigit && g.isDigit && h.isDigit
  | _ => false

/-- The date checks of `ReminderForm.validate`: a date must be present
(non-empty) and match the `YYYY-MM-DD` regular expression; the form
only submits when validation passes. -/
def formValidateDate (date : String) : Bool :=
  if date = "" then false else dateRegexTest date

/-- The full journey of a submitted display string to the
moment-in-time value handed to the store client: `ReminderForm.validate`
gates submission, then the dashboard handler parses.  `none` means the
string was rejected (no service call happens). -/
def submitDisplayDate (s : String) : Option CivilDate :=
  if formValidateDate s then handleSubmitDate s else none

/-! ### Reminder Store Client (`src/services/authService.js`) -/

/-- JavaScript `s.trim()`: strips whitespace from both ends (modelled
on character-level whitespace; the strings the claims involve use
ordinary spaces, tabs and newlines). -/
def jsTrim (s : String) : String :=
  ⟨((s.data.dropWhile Char.isWhitespace).reverse.dropWhile Char.isWhitespace).reverse⟩

/-- Errors surfaced by the store client: `TypeError`s thrown by its own
validation (the spec's `InvalidArgument`) and Firestore failures it
propagates unchanged (the spec's `StorageFailure`; in this model of a
reachable, permitted store only `updateDoc`'s not-found can arise). -/
inductive SvcError where
  | typeError (msg : String)
  | notFound
deriving DecidableEq

/-- A document of the `users/{userId}/reminders` collection as it sits
in storage: a Firestore-assigned id plus the `text` and `date` fields,
each possibly absent or holding a value of an unexpected type (the
store itself enforces no schema). -/
structure StoreEntry where
  userId : String
  docId : String
  text : Option JSVal
  date : Option JSVal
deriving DecidableEq

/-- Model of `validateNonEmptyString(value, argName)`: throws `TypeError` unless
the value is a string that is non-empty after `trim()`; the validated
string is returned for use at the call site (as a path segment). -/
def validateNonEmptyString (value : JSVal) (argName : String) :
    Except SvcError String :=
  match value with
  | .vStr s =>
    if jsTrim s = "" then
      .error (.typeError (argName ++ " must be a non-empty string."))
    else .ok s
  | _ => .error (.typeError (argName ++ " must be a non-empty string."))

/-- The `reminderData` argument of `addReminder`: an object with `text`
and `date` properties (an absent property reads as `undefined`).  The
source's `!reminderData || typeof reminderData !== 'object'` guard is
outside the model because the argument is an object by construction. -/
structure ReminderData where
  text : JSVal
  date : JSVal

/-- Model of `addReminder(userId, reminderData)`: validates `userId` and
`reminderData.text` as non-empty strings and `reminderData.date` as a
valid `Date`, converts the date with `Timestamp.fromDate`, and appends
a new document under `users/{userId}/reminders` with the
storage-assigned id `freshId`, returning its id.  Every validation
failure throws before `addDoc` is reached. -/
def addReminder (freshId : String) (userId : JSVal) (reminderData : ReminderData)
    (store : List StoreEntry) : Except SvcError (List StoreEntry × String) := do
  let uid ← validateNonEmptyString userId "userId"
  let _ ← validateNonEmptyString reminderData.text "reminderData.text"
  match reminderData.date with
  | .vDate (some d) =>
    pure (store ++ [{ userId := uid, docId := freshId,
                      text := some reminderData.text,
                      date := some (.vTimestamp d) }], freshId)
  | _ => throw (.typeError "reminderData.date must be a valid Date object.")

/-- Chronological key of a calendar day (strictly monotone in the
year/month/day lexicographic order on valid dates, hence in the
timestamp order Firestore sorts by). -/
def dateKey (c : CivilDate) : Int :=
  c.year * 10000 + (c.month : Int) * 100 + (c.day : Int)

/-- Sort key the `orderBy('date', 'asc')` query uses on a document:
the timestamp value, or `none` for a missing or non-timestamp `date`
field (such documents sort first here; the client-side structure check
below drops them, so their relative position is unobservable). -/
def entryKey (e : StoreEntry) : Option Int :=
  match e.date with
  | some (.vTimestamp d) => some (dateKey d)
  | _ => none

/-- Boolean comparison realising the query order. -/
def entryLeB (a b : StoreEntry) : Bool :=
  match entryKey a, entryKey b with
  | none, _ => true
  | some _, none => false
  | some x, some y => decide (x ≤ y)

/-- The query order as a relation (for `List.insertionSort`). -/
def entryLe (a b : StoreEntry) : Prop :=
  entryLeB a b = true

instance : DecidableRel entryLe :=
  fun a b => inferInstanceAs (Decidable (entryLeB a b = true))

/-- Query `getDocs(query(remindersColRef, orderBy('date', 'asc')))`: the
owner's documents, sorted ascending on the `date` field. -/
def remindersQuery (uid : String) (store : List StoreEntry) : List StoreEntry :=
  (store.filter (fun e => e.userId == uid)).insertionSort entryLe

/-- A reminder as `getReminders` returns it:
`{id: docSnap.id, text: data.text, date: data.date.toDate()}`.  The
`text` field carries the raw stored value — the source checks only its
truthiness, not its type. -/
structure Reminder where
  id : String
  text : JSVal
  date : CivilDate
deriving DecidableEq

/-- The per-document body of the `querySnapshot.forEach` loop in
`getReminders`: the structure check
`data.text && data.date && data.date instanceof Timestamp` decides
whether the document is pushed (converted) or skipped with a logged
warning (`none`). -/
def convertDoc (e : StoreEntry) : Option Reminder :=
  if truthyOpt e.text && truthyOpt e.date then
    match e.date with
    | some (.vTimestamp d) => some ⟨e.docId, (e.text).getD .vUndef, d⟩
    | _ => none
  else none

/-- Model of `getReminders(userId)`: validates the owner id, runs the ordered
query, and converts each document, skipping those that fail the
structure check.  Firestore failures would propagate; against a
reachable store the only local failure is the owner-id validation. -/
def getReminders (userId : JSVal) (store : List StoreEntry) :
    Except SvcError (List Reminder) := do
  let uid ← validateNonEmptyString userId "userId"
  pure ((remindersQuery uid store).filterMap convertDoc)

/-- The `updatedData` argument of `updateReminder`: `text`/`date` are
`some v` exactly when the object has that own property (with value `v`,
possibly `undefined`); `otherKeys` counts own properties other than
`text` and `date`, so `Object.keys(updatedData).length` is recoverable
below. -/
structure UpdatePatch where
  text : Option JSVal
  date : Option JSVal
  otherKeys : Nat
deriving DecidableEq

/-- Count `Object.keys(updatedData).length`. -/
def UpdatePatch.keyCount (p : UpdatePatch) : Nat :=
  (if p.text.isSome then 1 else 0) + (if p.date.isSome then 1 else 0) + p.otherKeys

/-- Model of `updateReminder(userId, reminderId, updatedData)`: validates the
ids, rejects a key-less patch, validates each supplied field
(`dataToUpdate` keeps the raw string for `text` and
`Timestamp.fromDate` of the date for `date`), rejects a patch with no
recognised field, and finally calls `updateDoc`, which merges exactly
the supplied fields into the document and fails (not-found) if the
document does not exist.  All validation precedes the `updateDoc`
call. -/
def updateReminder (userId reminderId : JSVal) (updatedData : UpdatePatch)
    (store : List StoreEntry) : Except SvcError (List StoreEntry) := do
  let uid ← validateNonEmptyString userId "userId"
  let rid ← validateNonEmptyString reminderId "reminderId"
  if updatedData.keyCount = 0 then
    throw (.typeError "updatedData must be a non-empty object with fields to update.")
  let textUpd : Option JSVal ←
    match updatedData.text with
    | some (.vStr s) =>
      if jsTrim s = "" then
        throw (.typeError "updatedData.text, if provided, must be a non-empty string.")
      else pure (some (.vStr s))
    | some _ =>
      throw (.typeError "updatedData.text, if provided, must be a non-empty string.")
    | none => pure none
  let dateUpd : Option JSVal ←
    match updatedData.date with
    | some (.vDate (some d)) => pure (some (.vTimestamp d))
    | some _ =>
      throw (.typeError "updatedData.date, if provided, must be a valid Date object.")
    | none => pure none
  if textUpd.isNone && dateUpd.isNone then
    throw (.typeError "updatedData object did not contain any valid fields to update (text or date).")
  if store.any (fun e => e.userId == uid && e.docId == rid) then
    pure (store.map (fun e =>
      if e.userId == uid && e.docId == rid then
        { e with text := textUpd.orElse (fun _ => e.text),
                 date := dateUpd.orElse (fun _ => e.date) }
      else e))
  else throw .notFound

/-- Model of `deleteReminder(userId, reminderId)`: validates the ids and calls
`deleteDoc`, which removes the document and succeeds even when no such
document exists. -/
def deleteReminder (userId reminderId : JSVal) (store : List StoreEntry) :
    Except SvcError (List StoreEntry) := do
  let uid ← validateNonEmptyString userId "userId"
  let rid ← validateNonEmptyString reminderId "reminderId"
  pure (store.filter (fun e => !(e.userId == uid && e.docId == rid)))

/-! ### Auth error mapping (`AuthContext.jsx`) -/

/-- The argument of `mapAuthErrorToMessage`: a Firebase auth error
carries a `code` string; anything without a `code` property takes the
generic branch. -/
inductive AuthError where
  | coded (code : String)
  | generic

/-- Model of `mapAuthErrorToMessage(error)`: the `switch` over Firebase error
codes, with `auth/invalid-credential`, `auth/user-not-found` and
`auth/wrong-password` grouped onto one message so a failed sign-in does
not reveal whether the account exists. -/
def mapAuthErrorToMessage (error : AuthError) : String :=
  match error with
  | .coded code =>
    if code = "auth/invalid-credential" ∨ code = "auth/user-not-found" ∨
        code = "auth/wrong-password" then
      "Invalid email or password. Please check your credentials and try again."
    else if code = "auth/too-many-requests" then
      "Access temporarily disabled due to too many failed login attempts. Please reset your password or try again later."
    else if code = "auth/network-request-failed" then
      "Network error. Please check your internet connection and try again."
    else if code = "auth/email-already-in-use" then
      "This email address is already associated with an account."
    else if code = "auth/weak-password" then
      "Password is too weak. Please choose a stronger password."
    else if code = "auth/invalid-email" then
      "Invalid email format. Please enter a valid email address."
    else
      "An unexpected authentication error occurred. Please try again later."
  | .generic => "An unexpected error occurred. Please try again."

/-! ### Claim-side vocabulary

Predicates phrased after the specification's wording, used only in the
statements below and compared there against the behaviour of the
embedded code — never used inside the embedded functions themselves. -/

/-- The valid resolvable date of a normalizer input, when it has one:
a valid native date, a storage timestamp, or a timestamp-like object
whose conversion method returns a valid date. -/
def resolvesTo : JSVal → Option CivilDate
  | .vDate (some d) => some d
  | .vTimestamp d => some d
  | .vTsLike (.retDate (some d)) => some d
  | _ => none

/-- Spec shape of a well-formed stored `text` field: a non-empty
string. -/
def isNonemptyStringField : Option JSVal → Bool
  | some (.vStr s) => s != ""
  | _ => false

/-- Spec shape of a well-formed stored `date` field: a storage
timestamp. -/
def isTimestampField : Option JSVal → Bool
  | some (.vTimestamp _) => true
  | _ => false

/-- A stored document the spec calls valid: a non-empty string `text`
and a timestamp `date`. -/
def validStoredEntry (e : StoreEntry) : Bool :=
  isNonemptyStringField e.text && isTimestampField e.date

/-! ### Facts about the decimal renderer and parser -/

theorem natCharsCore_irrel : ∀ (f₁ f₂ n : Nat), n < f₁ → n < f₂ → ∀ acc,
    natCharsCore f₁ n acc = natCharsCore f₂ n acc := by
  intro f₁
  induction f₁ with
  | zero => intro f₂ n h₁; omega
  | succ f ih =>
    intro f₂ n h₁ h₂ acc
    cases f₂ with
    | zero => omega
    | succ g =>
      by_cases hn : n < 10
      · simp [natCharsCore, hn]
      · have hd : n / 10 < n := Nat.div_lt_self (by omega) (by omega)
        simp only [natCharsCore, if_neg hn]
        exact ih g (n / 10) (by omega) (by omega) _

theorem natCharsCore_acc : ∀ (fuel n : Nat) (acc : List Char),
    natCharsCore fuel n acc = natCharsCore fuel n [] ++ acc := by
  intro fuel
  induction fuel with
  | zero => intro n acc; rfl
  | succ f ih =>
    intro n acc
    by_cases hn : n < 10
    · simp [natCharsCore, hn]
    · simp only [natCharsCore, if_neg hn]
      rw [ih (n / 10) (Nat.digitChar (n % 10) :: acc),
        ih (n / 10) [Nat.digitChar (n % 10)]]
      simp

theorem natToChars_eq (n : Nat) :
    natToChars n = if n < 10 then [Nat.digitChar n]
      else natToChars (n / 10) ++ [Nat.digitChar (n % 10)] := by
  by_cases hn : n < 10
  · simp [natToChars, natCharsCore, hn]
  · have hd : n / 10 < n := Nat.div_lt_self (by omega) (by omega)
    show natCharsCore (n + 1) n [] = _
    simp only [natCharsCore, if_neg hn]
    rw [natCharsCore_irrel n (n / 10 + 1) (n / 10) (by omega) (by omega),
      natCharsCore_acc]
    rfl

theorem digitChar_isDigit : ∀ d : Nat, d < 10 → (Nat.digitChar d).isDigit = true := by
  decide

theorem digitChar_ne_dash : ∀ d : Nat, d < 10 → Nat.digitChar d ≠ '-' := by
  decide

theorem digitChar_val : ∀ d : Nat, d < 10 → (Nat.digitChar d).toNat - 48 = d := by
  decide

theorem natToChars_forall (n : Nat) :
    ∀ c ∈ natToChars n, c.isDigit = true ∧ c ≠ '-' := by
  induction n using Nat.strong_induction_on with
  | _ n ih =>
    rw [natToChars_eq]
    by_cases hn : n < 10
    · simpa [hn] using ⟨digitChar_isDigit n hn, digitChar_ne_dash n hn⟩
    · have hd : n / 10 < n := Nat.div_lt_self (by omega) (by omega)
      have hm : n % 10 < 10 := Nat.mod_lt _ (by omega)
      simp only [if_neg hn, List.mem_append, List.mem_singleton]
      rintro c (hc | rfl)
      · exact ih (n / 10) hd c hc
      · exact ⟨digitChar_isDigit _ hm, digitChar_ne_dash _ hm⟩

theorem natToChars_ne_nil (n : Nat) : natToChars n ≠ [] := by
  rw [natToChars_eq]
  by_cases hn : n < 10 <;> simp [hn]

theorem charsToNat_append_singleton (l : List Char) (c : Char) :
    charsToNat (l ++ [c]) = 10 * charsToNat l + (c.toNat - 48) := by
  unfold charsToNat
  rw [List.foldl_append]
  rfl

theorem charsToNat_natToChars (n : Nat) : charsToNat (natToChars n) = n := by
  induction n using Nat.strong_induction_on with
  | _ n ih =>
    rw [natToChars_eq]
    by_cases hn : n < 10
    · simp only [if_pos hn]
      show 10 * 0 + ((Nat.digitChar n).toNat - 48) = n
      rw [digitChar_val n hn]
      omega
    · have hd : n / 10 < n := Nat.div_lt_self (by omega) (by omega)
      have hm : n % 10 < 10 := Nat.mod_lt _ (by omega)
      simp only [if_neg hn]
      rw [charsToNat_append_singleton, ih (n / 10) hd, digitChar_val _ hm]
      omega

theorem charsToNat_cons_zero (l : List Char) :
    charsToNat ('0' :: l) = charsToNat l := rfl

theorem jsNumber_natToChars (n : Nat) : jsNumber (natToChars n) = some (n : Int) := by
  unfold jsNumber
  rw [if_neg (natToChars_ne_nil n)]
  have hall : (natToChars n).all Char.isDigit = true := by
    rw [List.all_eq_true]
    intro c hc
    exact (natToChars_forall n c hc).1
  rw [if_pos hall, charsToNat_natToChars]

theorem natToChars_no_dash (n : Nat) : '-' ∉ natToChars n :=
  fun h => (natToChars_forall n '-' h).2 rfl

theorem padTwo_cases (n : Nat) :
    padTwo n = natToChars n ∨ padTwo n = '0' :: natToChars n := by
  unfold padTwo
  by_cases h : (natToChars n).length < 2 <;> simp [h]

theorem jsNumber_padTwo (n : Nat) : jsNumber (padTwo n) = some (n : Int) := by
  rcases padTwo_cases n with h | h <;> rw [h]
  · exact jsNumber_natToChars n
  · unfold jsNumber
    have hne : ('0' :: natToChars n) ≠ ([] : List Char) := by simp
    have hall : ('0' :: natToChars n).all Char.isDigit = true := by
      rw [List.all_eq_true]
      rintro c (_ | hc)
      · rfl
      · exact (natToChars_forall n c (by assumption)).1
    rw [if_neg hne, if_pos hall, charsToNat_cons_zero, charsToNat_natToChars]

theorem padTwo_no_dash (n : Nat) : '-' ∉ padTwo n := by
  rcases padTwo_cases n with h | h <;> rw [h]
  · exact natToChars_no_dash n
  · intro hc
    rcases hc with _ | hc
    · exact natToChars_no_dash n (by assumption)

/-! ### Facts about `split('-')` -/

theorem splitOnDash_ne_nil : ∀ l : List Char, splitOnDash l ≠ []
  | [] => by simp [splitOnDash]
  | c :: rest => by
    simp only [splitOnDash]
    rcases h : splitOnDash rest with _ | ⟨h₁, t⟩
    · simp
    · by_cases hc : c = '-' <;> simp [hc]

theorem splitOnDash_no_dash : ∀ l : List Char, '-' ∉ l → splitOnDash l = [l]
  | [], _ => rfl
  | c :: rest, h => by
    have hc : ¬(c = '-') := fun e => h (e ▸ List.mem_cons_self c rest)
    have hr : '-' ∉ rest := fun e => h (List.mem_cons_of_mem c e)
    simp only [splitOnDash, splitOnDash_no_dash rest hr]
    simp [hc]

theorem splitOnDash_append : ∀ (a b : List Char), '-' ∉ a →
    splitOnDash (a ++ '-' :: b) = a :: splitOnDash b
  | [], b, _ => by
    simp only [List.nil_append, splitOnDash]
    rcases h : splitOnDash b with _ | ⟨h₁, t⟩
    · exact absurd h (splitOnDash_ne_nil b)
    · simp
  | c :: a, b, h => by
    have hc : ¬(c = '-') := fun e => h (e ▸ List.mem_cons_self c a)
    have ha : '-' ∉ a := fun e => h (List.mem_cons_of_mem c e)
    simp only [List.cons_append, splitOnDash]
    rw [List.append_eq, splitOnDash_append a b ha]
    simp [hc]

/-! ### Facts about the `Date` constructor on rollover-free input -/

theorem addDays_no_rollover : ∀ (k : Nat) (y : Int) (m d : Nat),
    1 ≤ m → m ≤ 12 → 1 ≤ d → d + k ≤ daysInMonth y m →
    addDays ⟨y, m, d⟩ k = ⟨y, m, d + k⟩
  | 0, y, m, d, _, _, _, _ => rfl
  | k + 1, y, m, d, h₁, h₂, h₃, h₄ => by
    have hd : d < daysInMonth y m := by omega
    show addDays (nextDay ⟨y, m, d⟩) k = _
    have hnext : nextDay ⟨y, m, d⟩ = ⟨y, m, d + 1⟩ := by
      unfold nextDay
      simp [hd]
    rw [hnext, addDays_no_rollover k y m (d + 1) h₁ h₂ (by omega) (by omega)]
    congr 1
    omega

theorem jsDateCtor_no_rollover (y : Int) (m d : Nat)
    (hy : ¬(0 ≤ y ∧ y ≤ 99)) (hm₁ : 1 ≤ m) (hm₂ : m ≤ 12)
    (hd₁ : 1 ≤ d) (hd₂ : d ≤ daysInMonth y m) :
    jsDateCtor (some y) (some ((m : Int) - 1)) (some (d : Int)) = some ⟨y, m, d⟩ := by
  have hfd : ((m : Int) - 1).fdiv 12 = 0 := by interval_cases m <;> rfl
  have hem : (((m : Int) - 1).emod 12).toNat + 1 = m := by interval_cases m <;> rfl
  have h₁d : (1 : Int) ≤ (d : Int) := by exact_mod_cast hd₁
  have htn : ((d : Int) - 1).toNat = d - 1 := by omega
  simp only [jsDateCtor]
  rw [if_neg hy, hfd, hem, htn, if_pos h₁d, add_zero]
  rw [addDays_no_rollover (d - 1) y m 1 hm₁ hm₂ (by omega) (by omega)]
  congr 2
  omega

/-! ### The formatter's output and its reparse -/

theorem fmtYMD_data (c : CivilDate) :
    (fmtYMD c).data = intToChars c.year ++ '-' :: (padTwo c.month ++ '-' :: padTwo c.day) := by
  simp [fmtYMD]

theorem fmtYMD_ne_empty (c : CivilDate) : fmtYMD c ≠ "" := by
  intro h
  have hd := congrArg String.data h
  rw [fmtYMD_data] at hd
  rcases he : intToChars c.year with _ | ⟨x, xs⟩ <;> rw [he] at hd <;> simp at hd

theorem dashboardParseDate_fmtYMD (c : CivilDate) (hv : c.Valid) (hy : 100 ≤ c.year) :
    dashboardParseDate (fmtYMD c) = some c := by
  obtain ⟨hm₁, hm₂, hd₁, hd₂⟩ := hv
  have hy0 : ¬ c.year < 0 := by omega
  have hint : intToChars c.year = natToChars c.year.toNat := if_neg hy0
  have hsplit : splitOnDash (fmtYMD c).data =
      [natToChars c.year.toNat, padTwo c.month, padTwo c.day] := by
    rw [fmtYMD_data, hint,
      splitOnDash_append _ _ (natToChars_no_dash c.year.toNat),
      splitOnDash_append _ _ (padTwo_no_dash c.month),
      splitOnDash_no_dash _ (padTwo_no_dash c.day)]
  have hcast : ((c.year.toNat : Nat) : Int) = c.year := Int.toNat_of_nonneg (by omega)
  unfold dashboardParseDate
  rw [hsplit]
  simp only [List.map_cons, List.map_nil, jsNumber_natToChars, jsNumber_padTwo,
    List.get?, Option.getD_some, Option.map_some, hcast]
  exact jsDateCtor_no_rollover c.year c.month c.day (by omega) hm₁ hm₂ hd₁ hd₂

/-! ## The claims -/

/-- C1, counterexample to the claim as stated: the calendar day
1 March of year 50 is a valid native date, `formatDateForDisplay`
renders it `"50-03-01"`, and the dashboard handler's reparse
`new Date(50, 2, 1)` lands on 1 March 1950 — a different calendar day —
because the `Date` constructor reads a year argument in 0..99 as
1900 + year. -/
theorem roundTrip_fails_year50 :
    (⟨50, 3, 1⟩ : CivilDate).Valid ∧
      formatDateForDisplay (.vDate (some ⟨50, 3, 1⟩)) = "50-03-01" ∧
      handleSubmitDate (formatDateForDisplay (.vDate (some ⟨50, 3, 1⟩))) =
        some ⟨1950, 3, 1⟩ ∧
      (⟨1950, 3, 1⟩ : CivilDate) ≠ (⟨50, 3, 1⟩ : CivilDate) :=
  ⟨by decide, rfl, rfl, by decide⟩

/-- C1 (amended): for every valid native date whose (local) calendar
year is at least 100, parsing the display string back through the
dashboard submit handler yields the same calendar day; for years 0–99
the round trip lands in 1900–1999 instead (and negative years also
fail), so the claim holds only above year 99. -/
theorem roundTrip_display_date (c : CivilDate) (hv : c.Valid) (hy : 100 ≤ c.year) :
    handleSubmitDate (formatDateForDisplay (.vDate (some c))) = some c := by
  show handleSubmitDate (fmtYMD c) = some c
  unfold handleSubmitDate
  rw [if_neg (fmtYMD_ne_empty c)]
  exact dashboardParseDate_fmtYMD c hv hy

/-- C1 witness: the amended round trip at 1 June 2025. -/
theorem roundTrip_display_date_witness :
    handleSubmitDate (formatDateForDisplay (.vDate (some ⟨2025, 6, 1⟩))) =
      some ⟨2025, 6, 1⟩ :=
  roundTrip_display_date ⟨2025, 6, 1⟩ (by decide) (by decide)

/-- C2: `formatDateForDisplay` is total (the embedding returns a plain
`String`; every exception its steps could raise is caught in the
source), returns the empty string exactly for the inputs with no valid
resolvable date — null/undefined, a timestamp-like object whose
conversion throws or returns a non-date, any other input shape (string,
number, boolean, plain object), or a resolved date with a `NaN` time
value — and on every other input returns the formatted date string with
zero-padded two-digit month and day. -/
theorem formatDateForDisplay_total_spec (v : JSVal) :
    (formatDateForDisplay v = "" ↔ resolvesTo v = none) ∧
      (∀ d, resolvesTo v = some d → formatDateForDisplay v = fmtYMD d) := by
  rcases v with _ | _ | s | n | b | (_ | c) | c | (_ | _ | (_ | c)) | _ <;>
    simp [formatDateForDisplay, resolvesTo, fmtYMD_ne_empty]

/-- C2 witness: a concrete valid timestamp formats to its date string,
and a string input degrades to the empty string. -/
theorem formatDateForDisplay_total_spec_witness :
    formatDateForDisplay (.vTimestamp ⟨2025, 6, 1⟩) = fmtYMD ⟨2025, 6, 1⟩ ∧
      formatDateForDisplay (.vStr "junk") = "" :=
  ⟨(formatDateForDisplay_total_spec (.vTimestamp ⟨2025, 6, 1⟩)).2 ⟨2025, 6, 1⟩ rfl,
    (formatDateForDisplay_total_spec (.vStr "junk")).1.mpr rfl⟩

/-- C3, counterexample to the claim as stated: the calendar-invalid
strings `"2025-02-30"` and `"2025-13-01"` match the zero-padded
`YYYY-MM-DD` regular expression, so `ReminderForm.validate` accepts
them, and the dashboard handler's `new Date(y, m - 1, d)` silently
rolls them over to 2 March 2025 and 1 January 2026 respectively — the
submission path coerces instead of rejecting (no calendar check ever
runs). -/
theorem submitDate_coerces_invalid_calendar :
    submitDisplayDate "2025-02-30" = some ⟨2025, 3, 2⟩ ∧
      submitDisplayDate "2025-13-01" = some ⟨2026, 1, 1⟩ := by
  constructor
  · set_option maxRecDepth 4000 in rfl
  · set_option maxRecDepth 4000 in rfl

/-- C3 (amended): the submission path rejects every string that does
not match the exact zero-padded `YYYY-MM-DD` pattern (the store client
is never reached); calendar-invalid combinations that do match the
pattern, however, are not rejected but coerced by the `Date`
constructor's rollover, as the counterexample shows. -/
theorem submitDate_rejects_nonmatching (s : String)
    (h : dateRegexTest s = false) : submitDisplayDate s = none := by
  unfold submitDisplayDate formValidateDate
  by_cases hs : s = "" <;> simp [hs, h]

/-- C3 witness: a shapeless string is rejected. -/
theorem submitDate_rejects_nonmatching_witness :
    submitDisplayDate "hello" = none :=
  submitDate_rejects_nonmatching "hello" rfl

/-! ### Facts about the store client -/

theorem validateNonEmptyString_ok (s arg : String) (h : jsTrim s ≠ "") :
    validateNonEmptyString (.vStr s) arg = .ok s := by
  simp only [validateNonEmptyString]
  rw [if_neg h]

theorem validateNonEmptyString_not_ok (v : JSVal) (arg : String)
    (h : ∀ s, v = .vStr s → jsTrim s = "") :
    validateNonEmptyString v arg =
      .error (.typeError (arg ++ " must be a non-empty string.")) := by
  rcases v with _ | _ | s | n | b | d | c | r | _
  case vStr =>
    simp only [validateNonEmptyString]
    rw [if_pos (h s rfl)]
  all_goals rfl

theorem getReminders_ok (uid : String) (h : jsTrim uid ≠ "")
    (store : List StoreEntry) :
    getReminders (.vStr uid) store =
      .ok ((remindersQuery uid store).filterMap convertDoc) := by
  unfold getReminders
  rw [validateNonEmptyString_ok uid "userId" h]
  rfl

instance : IsTotal StoreEntry entryLe :=
  ⟨fun a b => by
    unfold entryLe entryLeB
    rcases entryKey a with _ | x
    · simp
    · rcases entryKey b with _ | y
      · simp
      · simp
        omega⟩

instance : IsTrans StoreEntry entryLe :=
  ⟨fun a b c => by
    unfold entryLe entryLeB
    rcases entryKey a with _ | x
    all_goals rcases entryKey b with _ | y
    all_goals rcases entryKey c with _ | z
    all_goals simp
    all_goals omega⟩

theorem pairwise_filterMap {α β : Type} {R : α → α → Prop} {S : β → β → Prop}
    (f : α → Option β)
    (H : ∀ a b, R a b → ∀ x, f a = some x → ∀ y, f b = some y → S x y) :
    ∀ {l : List α}, l.Pairwise R → (l.filterMap f).Pairwise S := by
  intro l
  induction l with
  | nil => intro _; simp
  | cons a l ih =>
    intro hp
    rw [List.pairwise_cons] at hp
    rcases hf : f a with _ | x
    · rw [List.filterMap_cons_none hf]
      exact ih hp.2
    · rw [List.filterMap_cons_some hf, List.pairwise_cons]
      refine ⟨fun y hy => ?_, ih hp.2⟩
      rcases List.mem_filterMap.mp hy with ⟨b, hb, hfb⟩
      exact H a b (hp.1 b hb) x hf y hfb

theorem convertDoc_some (e : StoreEntry) (r : Reminder)
    (h : convertDoc e = some r) :
    ∃ d, e.date = some (.vTimestamp d) ∧
      r = ⟨e.docId, (e.text).getD .vUndef, d⟩ := by
  unfold convertDoc at h
  by_cases hc : (truthyOpt e.text && truthyOpt e.date) = true
  · rw [if_pos hc] at h
    rcases hd : e.date with _ | (_ | _ | s | n | b | od | d | tr | _) <;>
      rw [hd] at h <;> simp at h
    exact ⟨d, rfl, h.symm⟩
  · rw [if_neg hc] at h
    simp at h

theorem convertDoc_valid (e : StoreEntry) (s : String) (d : CivilDate)
    (ht : e.text = some (.vStr s)) (hs : s ≠ "")
    (hd : e.date = some (.vTimestamp d)) :
    convertDoc e = some ⟨e.docId, .vStr s, d⟩ := by
  unfold convertDoc
  rw [ht, hd]
  simp [truthyOpt, truthy, hs]

theorem convertDoc_dropped (e : StoreEntry)
    (h : truthyOpt e.text = false ∨ isTimestampField e.date = false) :
    convertDoc e = none := by
  unfold convertDoc
  rcases h with h | h
  · simp [h]
  · by_cases hc : (truthyOpt e.text && truthyOpt e.date) = true
    · rw [if_pos hc]
      rcases hd : e.date with _ | (_ | _ | s | n | b | od | d | tr | _) <;> simp
      unfold isTimestampField at h
      rw [hd] at h
      simp at h
    · rw [if_neg hc]

theorem entryKey_of_convertDoc (e : StoreEntry) (r : Reminder)
    (h : convertDoc e = some r) : entryKey e = some (dateKey r.date) := by
  rcases convertDoc_some e r h with ⟨d, hd, hr⟩
  unfold entryKey
  rw [hd, hr]

/-- Shared characterization of `getReminders` on a well-formed owner id:
it succeeds, its output is sorted ascending by date, it contains the
conversion of every convertible document of the owner, and nothing
else. -/
theorem getReminders_spec (uid : String) (h : jsTrim uid ≠ "")
    (store : List StoreEntry) :
    ∃ l, getReminders (.vStr uid) store = .ok l ∧
      List.Sorted (fun a b : Reminder => dateKey a.date ≤ dateKey b.date) l ∧
      (∀ e ∈ store, e.userId = uid → ∀ r, convertDoc e = some r → r ∈ l) ∧
      (∀ r ∈ l, ∃ e ∈ store, e.userId = uid ∧ convertDoc e = some r) := by
  refine ⟨(remindersQuery uid store).filterMap convertDoc,
    getReminders_ok uid h store, ?_, ?_, ?_⟩
  · have hsorted : List.Sorted entryLe ((store.filter
        (fun e => e.userId == uid)).insertionSort entryLe) :=
      List.sorted_insertionSort entryLe _
    refine pairwise_filterMap convertDoc ?_ hsorted
    intro a b hab x hx y hy
    have hka := entryKey_of_convertDoc a x hx
    have hkb := entryKey_of_convertDoc b y hy
    unfold entryLe entryLeB at hab
    rw [hka, hkb] at hab
    simpa using hab
  · intro e he heq r hr
    refine List.mem_filterMap.mpr ⟨e, ?_, hr⟩
    unfold remindersQuery
    rw [List.mem_insertionSort]
    exact List.mem_filter.mpr ⟨he, by simp [heq]⟩
  · intro r hr
    rcases List.mem_filterMap.mp hr with ⟨e, he, hc⟩
    unfold remindersQuery at he
    rw [List.mem_insertionSort] at he
    rcases List.mem_filter.mp he with ⟨he', heq⟩
    exact ⟨e, he', by simpa using heq, hc⟩

theorem ebind_ok {ε α β : Type} (a : α) (f : α → Except ε β) :
    (Except.ok a >>= f : Except ε β) = f a := rfl

theorem ebind_error {ε α β : Type} (e : ε) (f : α → Except ε β) :
    (Except.error e >>= f : Except ε β) = Except.error e := rfl

theorem validateNonEmptyString_cases (v : JSVal) (arg : String) :
    (∃ s, v = .vStr s ∧ jsTrim s ≠ "" ∧ validateNonEmptyString v arg = .ok s) ∨
      validateNonEmptyString v arg =
        .error (.typeError (arg ++ " must be a non-empty string.")) := by
  rcases v with _ | _ | s | n | b | d | c | r | _
  case vStr =>
    by_cases h : jsTrim s = ""
    · right
      simp only [validateNonEmptyString]
      rw [if_pos h]
    · exact Or.inl ⟨s, rfl, h, validateNonEmptyString_ok s arg h⟩
  all_goals right; rfl

/-- C4, counterexample to the claim as stated: a stored record whose
`text` field holds the number 123 — malformed for a field whose data
model says non-empty string — is not skipped: the structure check tests
only truthiness, so `getReminders` returns the record, raw number and
all, rather than omitting it. -/
theorem getReminders_keeps_truthy_nonstring_text :
    validStoredEntry ⟨"u1", "r1", some (.vNum 123), some (.vTimestamp ⟨2025, 6, 1⟩)⟩
        = false ∧
      getReminders (.vStr "u1")
          [⟨"u1", "r1", some (.vNum 123), some (.vTimestamp ⟨2025, 6, 1⟩)⟩] =
        .ok [⟨"r1", .vNum 123, ⟨2025, 6, 1⟩⟩] :=
  ⟨rfl, rfl⟩

/-- C4 (amended): for every owner with a well-formed id and every
stored collection state, `getReminders` never raises: every record
whose `text` is missing or falsy (in particular the empty string) or
whose `date` is missing or not a storage timestamp contributes nothing
to the result, every remaining valid record (non-empty string `text`,
timestamp `date`) is still returned converted, and nothing else is
returned — one corrupt record never prevents the rest of the list.  A
record with a truthy non-string `text` is not detected as malformed,
however: it is returned as-is (see the counterexample). -/
theorem getReminders_skips_corrupt (uid : String) (h : jsTrim uid ≠ "")
    (store : List StoreEntry) :
    ∃ l, getReminders (.vStr uid) store = .ok l ∧
      (∀ e, truthyOpt e.text = false ∨ isTimestampField e.date = false →
        convertDoc e = none) ∧
      (∀ e ∈ store, e.userId = uid → validStoredEntry e = true →
        ∃ r ∈ l, convertDoc e = some r) ∧
      (∀ r ∈ l, ∃ e ∈ store, e.userId = uid ∧ convertDoc e = some r) := by
  rcases getReminders_spec uid h store with ⟨l, hok, _, hcomplete, hsound⟩
  refine ⟨l, hok, fun e he => convertDoc_dropped e he, ?_, hsound⟩
  intro e he heq hvalid
  unfold validStoredEntry at hvalid
  rw [Bool.and_eq_true] at hvalid
  obtain ⟨hs₁, hs₂⟩ := hvalid
  rcases het : e.text with _ | (_ | _ | s | n | b | od | dd | tr | _) <;>
    rw [het] at hs₁ <;> simp [isNonemptyStringField] at hs₁
  rcases hed : e.date with _ | (_ | _ | s' | n' | b' | od' | d | tr' | _) <;>
    rw [hed] at hs₂ <;> simp [isTimestampField] at hs₂
  exact ⟨⟨e.docId, .vStr s, d⟩,
    hcomplete e he heq _ (convertDoc_valid e s d het hs₁ hed),
    convertDoc_valid e s d het hs₁ hed⟩

/-- C4 witness: the amended characterization at a store holding one
valid and one corrupt (non-timestamp `date`) record. -/
theorem getReminders_skips_corrupt_witness :
    ∃ l, getReminders (.vStr "u1")
        [⟨"u1", "bad", some (.vStr "x"), some (.vStr "not-a-date")⟩,
         ⟨"u1", "good", some (.vStr "y"), some (.vTimestamp ⟨2025, 5, 5⟩)⟩] = .ok l ∧
      (∀ e, truthyOpt e.text = false ∨ isTimestampField e.date = false →
        convertDoc e = none) ∧
      (∀ e ∈ [(⟨"u1", "bad", some (.vStr "x"), some (.vStr "not-a-date")⟩ : StoreEntry),
              ⟨"u1", "good", some (.vStr "y"), some (.vTimestamp ⟨2025, 5, 5⟩)⟩],
        e.userId = "u1" → validStoredEntry e = true → ∃ r ∈ l, convertDoc e = some r) ∧
      (∀ r ∈ l, ∃ e ∈ [(⟨"u1", "bad", some (.vStr "x"), some (.vStr "not-a-date")⟩ : StoreEntry),
              ⟨"u1", "good", some (.vStr "y"), some (.vTimestamp ⟨2025, 5, 5⟩)⟩],
        e.userId = "u1" ∧ convertDoc e = some r) :=
  getReminders_skips_corrupt "u1" (by decide) _

/-- C9: for every owner with a non-empty string identifier,
`getReminders` succeeds and returns the owner's valid records ordered
ascending by date — every valid record of the owner appears in the
result, everything in the result converts from one of the owner's
stored records, and the result is sorted by the chronological key. -/
theorem getReminders_sorted_ascending (uid : String) (h : jsTrim uid ≠ "")
    (store : List StoreEntry) :
    ∃ l, getReminders (.vStr uid) store = .ok l ∧
      List.Sorted (fun a b : Reminder => dateKey a.date ≤ dateKey b.date) l ∧
      (∀ e ∈ store, e.userId = uid → ∀ r, convertDoc e = some r → r ∈ l) ∧
      (∀ r ∈ l, ∃ e ∈ store, e.userId = uid ∧ convertDoc e = some r) :=
  getReminders_spec uid h store

/-- C9 witness: the spec's example — records dated 2025-01-03,
2025-01-01, 2025-01-02 inserted in that order come back as
[01, 02, 03] — plus the general theorem applied to that store. -/
theorem getReminders_sorted_ascending_witness :
    getReminders (.vStr "u1")
        [⟨"u1", "a", some (.vStr "x"), some (.vTimestamp ⟨2025, 1, 3⟩)⟩,
         ⟨"u1", "b", some (.vStr "y"), some (.vTimestamp ⟨2025, 1, 1⟩)⟩,
         ⟨"u1", "c", some (.vStr "z"), some (.vTimestamp ⟨2025, 1, 2⟩)⟩] =
      .ok [⟨"b", .vStr "y", ⟨2025, 1, 1⟩⟩, ⟨"c", .vStr "z", ⟨2025, 1, 2⟩⟩,
        ⟨"a", .vStr "x", ⟨2025, 1, 3⟩⟩] ∧
    ∃ l, getReminders (.vStr "u1")
        [⟨"u1", "a", some (.vStr "x"), some (.vTimestamp ⟨2025, 1, 3⟩)⟩,
         ⟨"u1", "b", some (.vStr "y"), some (.vTimestamp ⟨2025, 1, 1⟩)⟩,
         ⟨"u1", "c", some (.vStr "z"), some (.vTimestamp ⟨2025, 1, 2⟩)⟩] = .ok l ∧
      List.Sorted (fun a b : Reminder => dateKey a.date ≤ dateKey b.date) l ∧
      (∀ e ∈ [(⟨"u1", "a", some (.vStr "x"), some (.vTimestamp ⟨2025, 1, 3⟩)⟩ : StoreEntry),
              ⟨"u1", "b", some (.vStr "y"), some (.vTimestamp ⟨2025, 1, 1⟩)⟩,
              ⟨"u1", "c", some (.vStr "z"), some (.vTimestamp ⟨2025, 1, 2⟩)⟩],
        e.userId = "u1" → ∀ r, convertDoc e = some r → r ∈ l) ∧
      (∀ r ∈ l, ∃ e ∈ [(⟨"u1", "a", some (.vStr "x"), some (.vTimestamp ⟨2025, 1, 3⟩)⟩ : StoreEntry),
              ⟨"u1", "b", some (.vStr "y"), some (.vTimestamp ⟨2025, 1, 1⟩)⟩,
              ⟨"u1", "c", some (.vStr "z"), some (.vTimestamp ⟨2025, 1, 2⟩)⟩],
        e.userId = "u1" ∧ convertDoc e = some r) :=
  ⟨rfl, getReminders_sorted_ascending "u1" (by decide) _⟩

/-- C10: the auth error-to-message mapping sends the provider codes
`auth/invalid-credential`, `auth/user-not-found` and
`auth/wrong-password` to the identical user-facing message, so the
message after a failed sign-in does not reveal whether an account
exists for the given email. -/
theorem authError_hides_account_existence :
    mapAuthErrorToMessage (.coded "auth/invalid-credential") =
        mapAuthErrorToMessage (.coded "auth/user-not-found") ∧
      mapAuthErrorToMessage (.coded "auth/user-not-found") =
        mapAuthErrorToMessage (.coded "auth/wrong-password") :=
  ⟨rfl, rfl⟩

/-- C5: for an owner and an existing reminder id, a patch containing
only a valid `text` field rewrites exactly the `text` field of the
matching stored document — its `date` field and every other document
are untouched; symmetrically, a patch containing only a valid `date`
field rewrites exactly the `date` field (converted to a timestamp) and
leaves `text` untouched. -/
theorem updateReminder_partial_frame (uid rid s : String) (d : CivilDate)
    (store : List StoreEntry)
    (hu : jsTrim uid ≠ "") (hr : jsTrim rid ≠ "") (hs : jsTrim s ≠ "")
    (hex : store.any (fun e => e.userId == uid && e.docId == rid) = true) :
    updateReminder (.vStr uid) (.vStr rid) ⟨some (.vStr s), none, 0⟩ store =
        .ok (store.map fun e => if e.userId == uid && e.docId == rid
          then { e with text := some (.vStr s) } else e) ∧
      updateReminder (.vStr uid) (.vStr rid) ⟨none, some (.vDate (some d)), 0⟩ store =
        .ok (store.map fun e => if e.userId == uid && e.docId == rid
          then { e with date := some (.vTimestamp d) } else e) := by
  constructor <;>
    (unfold updateReminder
     rw [validateNonEmptyString_ok _ _ hu, ebind_ok,
       validateNonEmptyString_ok _ _ hr, ebind_ok]
     simp [UpdatePatch.keyCount, hs, hex, Option.orElse]
     rfl)

/-- C5 witness: updating only `text` keeps the stored timestamp, and
updating only `date` keeps the stored text, on a concrete one-document
store. -/
theorem updateReminder_partial_frame_witness :
    updateReminder (.vStr "u1") (.vStr "r1") ⟨some (.vStr "new"), none, 0⟩
        [⟨"u1", "r1", some (.vStr "old"), some (.vTimestamp ⟨2025, 1, 1⟩)⟩] =
      .ok [⟨"u1", "r1", some (.vStr "new"), some (.vTimestamp ⟨2025, 1, 1⟩)⟩] ∧
    updateReminder (.vStr "u1") (.vStr "r1") ⟨none, some (.vDate (some ⟨2026, 2, 2⟩)), 0⟩
        [⟨"u1", "r1", some (.vStr "old"), some (.vTimestamp ⟨2025, 1, 1⟩)⟩] =
      .ok [⟨"u1", "r1", some (.vStr "old"), some (.vTimestamp ⟨2026, 2, 2⟩)⟩] := by
  have h := updateReminder_partial_frame "u1" "r1" "new" ⟨2026, 2, 2⟩
    [⟨"u1", "r1", some (.vStr "old"), some (.vTimestamp ⟨2025, 1, 1⟩)⟩]
    (by decide) (by decide) (by decide) rfl
  have h' := updateReminder_partial_frame "u1" "r1" "old" ⟨2026, 2, 2⟩
    [⟨"u1", "r1", some (.vStr "old"), some (.vTimestamp ⟨2025, 1, 1⟩)⟩]
    (by decide) (by decide) (by decide) rfl
  exact ⟨h.1, h'.2⟩

/-- C6: `updateReminder` with a patch carrying neither a `text` nor a
`date` own property — the empty object, or an object with only
unrecognised keys — fails with a `TypeError` (the spec's
`InvalidArgument`), for every owner, id and store; the failure happens
before `updateDoc`, so no storage write occurs (an error result carries
no updated collection). -/
theorem updateReminder_vacuous_patch (userId reminderId : JSVal)
    (p : UpdatePatch) (store : List StoreEntry)
    (ht : p.text = none) (hd : p.date = none) :
    ∃ msg, updateReminder userId reminderId p store =
      .error (.typeError msg) := by
  unfold updateReminder
  rcases validateNonEmptyString_cases userId "userId" with ⟨uid, _, _, hu⟩ | hu
  case inr => exact ⟨_, by rw [hu, ebind_error]⟩
  rw [hu, ebind_ok]
  rcases validateNonEmptyString_cases reminderId "reminderId" with ⟨rid, _, _, hr⟩ | hr
  case inr => exact ⟨_, by rw [hr, ebind_error]⟩
  rw [hr, ebind_ok]
  by_cases hk : p.keyCount = 0
  · exact ⟨_, by rw [if_pos hk]; rfl⟩
  · refine ⟨"updatedData object did not contain any valid fields to update (text or date).", ?_⟩
    rw [if_neg hk, ht, hd]
    rfl

/-- C6 witness: the empty patch and the only-unrecognised-keys patch
both fail on a concrete store. -/
theorem updateReminder_vacuous_patch_witness :
    (∃ msg, updateReminder (.vStr "u1") (.vStr "r1") ⟨none, none, 0⟩
        [⟨"u1", "r1", some (.vStr "old"), some (.vTimestamp ⟨2025, 1, 1⟩)⟩] =
      .error (.typeError msg)) ∧
    ∃ msg, updateReminder (.vStr "u1") (.vStr "r1") ⟨none, none, 1⟩
        [⟨"u1", "r1", some (.vStr "old"), some (.vTimestamp ⟨2025, 1, 1⟩)⟩] =
      .error (.typeError msg) :=
  ⟨updateReminder_vacuous_patch _ _ _ _ rfl rfl,
    updateReminder_vacuous_patch _ _ _ _ rfl rfl⟩

/-- C7: `addReminder` rejects a `text` that is empty or whitespace-only
after trimming (or not a string), and a `date` that is not a valid
native date value, with a `TypeError` before any storage write (an
error result carries no updated collection, and in the source the
validation precedes `addDoc`); and on success the stored-text invariant
is preserved: if no stored record had blank text, none does afterwards,
because the new record's text was validated non-blank. -/
theorem addReminder_validates (freshId : String) (userId : JSVal)
    (rd : ReminderData) (store : List StoreEntry) :
    ((∀ s, rd.text = .vStr s → jsTrim s = "") ∨ (∀ d, rd.date ≠ .vDate (some d)) →
      ∃ msg, addReminder freshId userId rd store = .error (.typeError msg)) ∧
    (∀ store' newId, addReminder freshId userId rd store = .ok (store', newId) →
      (∀ e ∈ store, ∀ s, e.text = some (.vStr s) → jsTrim s ≠ "") →
      ∀ e ∈ store', ∀ s, e.text = some (.vStr s) → jsTrim s ≠ "") := by
  constructor
  · intro hbad
    unfold addReminder
    rcases validateNonEmptyString_cases userId "userId" with ⟨uid, _, _, hu⟩ | hu
    case inr => exact ⟨_, by rw [hu, ebind_error]⟩
    rw [hu, ebind_ok]
    rcases validateNonEmptyString_cases rd.text "reminderData.text"
      with ⟨s, hse, hsne, hst⟩ | hst
    case inr => exact ⟨_, by rw [hst, ebind_error]⟩
    rw [hst, ebind_ok]
    rcases hbad with hbad | hbad
    · exact absurd (hbad s hse) hsne
    · rcases hdd : rd.date with _ | _ | s' | n' | b' | (_ | dd) | dd | tr | _ <;>
        first
        | exact ⟨_, rfl⟩
        | exact absurd hdd (hbad dd)
  · intro store' newId hok hinv
    unfold addReminder at hok
    rcases validateNonEmptyString_cases userId "userId" with ⟨uid, _, _, hu⟩ | hu
    case inr => rw [hu, ebind_error] at hok; cases hok
    rw [hu, ebind_ok] at hok
    rcases validateNonEmptyString_cases rd.text "reminderData.text"
      with ⟨s, hse, hsne, hst⟩ | hst
    case inr => rw [hst, ebind_error] at hok; cases hok
    rw [hst, ebind_ok] at hok
    rcases hdd : rd.date with _ | _ | s' | n' | b' | (_ | dd) | dd | tr | _ <;>
      rw [hdd] at hok <;> cases hok
    intro e he t het
    rcases List.mem_append.mp he with he | he
    · exact hinv e he t het
    · have he' := List.mem_singleton.mp he
      subst he'
      change some rd.text = some (.vStr t) at het
      rw [hse] at het
      injection het with het
      injection het with het
      subst het
      exact hsne

/-- C7 witness: whitespace-only text and an invalid date are both
rejected on a concrete call, and the text invariant transports across a
successful concrete insert. -/
theorem addReminder_validates_witness :
    (∃ msg, addReminder "r1" (.vStr "u1") ⟨.vStr "   ", .vDate (some ⟨2025, 6, 1⟩)⟩ [] =
      .error (.typeError msg)) ∧
    ∃ msg, addReminder "r1" (.vStr "u1") ⟨.vStr "buy flowers", .vDate none⟩ [] =
      .error (.typeError msg) :=
  ⟨(addReminder_validates "r1" (.vStr "u1") ⟨.vStr "   ", .vDate (some ⟨2025, 6, 1⟩)⟩ []).1
      (Or.inl (fun s hs => by cases hs; rfl)),
    (addReminder_validates "r1" (.vStr "u1") ⟨.vStr "buy flowers", .vDate none⟩ []).1
      (Or.inr (fun d hd => by cases hd))⟩

/-- C8: each of the four operations validates its owner identifier
first: when the owner argument is not a string that is non-empty after
trimming, every operation fails immediately with the same `TypeError`
(the spec's `InvalidArgument`) and performs no storage access (the
error short-circuits before any store-touching step, as in the source
where `validateNonEmptyString(userId, ...)` precedes every SDK
call). -/
theorem ops_reject_invalid_owner (userId : JSVal)
    (h : ∀ s, userId = .vStr s → jsTrim s = "")
    (freshId : String) (rd : ReminderData) (reminderId : JSVal)
    (p : UpdatePatch) (store : List StoreEntry) :
    addReminder freshId userId rd store =
        .error (.typeError "userId must be a non-empty string.") ∧
      getReminders userId store =
        .error (.typeError "userId must be a non-empty string.") ∧
      updateReminder userId reminderId p store =
        .error (.typeError "userId must be a non-empty string.") ∧
      deleteReminder userId reminderId store =
        .error (.typeError "userId must be a non-empty string.") := by
  have hv := validateNonEmptyString_not_ok userId "userId" h
  refine ⟨?_, ?_, ?_, ?_⟩
  · unfold addReminder
    rw [hv, ebind_error]
    rfl
  · unfold getReminders
    rw [hv, ebind_error]
    rfl
  · unfold updateReminder
    rw [hv, ebind_error]
    rfl
  · unfold deleteReminder
    rw [hv, ebind_error]
    rfl

/-- C8 witness: a numeric owner id is rejected by all four
operations. -/
theorem ops_reject_invalid_owner_witness :
    addReminder "r1" (.vNum 7) ⟨.vStr "x", .vDate (some ⟨2025, 6, 1⟩)⟩ [] =
        .error (.typeError "userId must be a non-empty string.") ∧
      getReminders (.vNum 7) [] =
        .error (.typeError "userId must be a non-empty string.") ∧
      updateReminder (.vNum 7) (.vStr "r1") ⟨some (.vStr "x"), none, 0⟩ [] =
        .error (.typeError "userId must be a non-empty string.") ∧
      deleteReminder (.vNum 7) (.vStr "r1") [] =
        .error (.typeError "userId must be a non-empty string.") :=
  ops_reject_invalid_owner (.vNum 7) (fun s hs => by cases hs)
    "r1" ⟨.vStr "x", .vDate (some ⟨2025, 6, 1⟩)⟩ (.vStr "r1")
    ⟨some (.vStr "x"), none, 0⟩ []

end Giftify
